import Mathlib

/-!
Verification of the `codestat` project analyzer (package `project_analyzer`).

The definitions below are a shallow embedding of the Python sources:
`models.py` (FileStats, DirectoryStats), `analyzers/language_config.py`
(comment-syntax registry), `analyzers/generic.py` (GenericAnalyzer),
`analyzers/python.py` (PythonAnalyzer) and `core.py` (ProjectAnalyzer).
Python integers are modelled as `Int` (or `Nat` for counts of list
elements), Python floats as exact rationals `ℚ`, Python strings as
`String`, and the filesystem as an inductive tree value.  External
effects (reading a file's lines, the stdlib tokenizer, exceptions
raised by an analyzer) are passed in as explicit parameters.
-/

/-- Characterwise list check used to embed Python `str.startswith`
at the `List Char` level: returns true when the first list is an
initial segment of the second. -/
def charsStart : List Char → List Char → Bool
  | [], _ => true
  | _ :: _, [] => false
  | p :: ps, c :: cs => p == c && charsStart ps cs

/-- Embedding of Python's substring test `pat in s` on character
lists: true when `pat` occurs contiguously inside `hay`. -/
def charsContain (pat : List Char) : List Char → Bool
  | [] => charsStart pat []
  | c :: rest => charsStart pat (c :: rest) || charsContain pat rest

/-- Embedding of Python's `pat in s` for strings. -/
def strContains (s pat : String) : Bool :=
  charsContain pat.toList s.toList

/-- Embedding of Python's `s.startswith(pre)`. -/
def pyStartsWith (s pre : String) : Bool :=
  charsStart pre.toList s.toList

/-- The characters Python's `str.strip()` removes (ASCII whitespace;
the rare further Unicode whitespace characters are out of scope). -/
def isPySpace (c : Char) : Bool :=
  c == ' ' || c == '\t' || c == '\n' || c == '\r' || c == '\x0b' || c == '\x0c'

/-- Embedding of Python's `s.strip()`: drop leading and trailing
whitespace. -/
def pyStrip (s : String) : String :=
  String.mk (((s.toList.dropWhile isPySpace).reverse.dropWhile isPySpace).reverse)

/-- ASCII lowercasing of one character, embedding `str.lower` on the
characters that occur in extension strings. -/
def pyCharLower (c : Char) : Char :=
  if 'A' ≤ c ∧ c ≤ 'Z' then Char.ofNat (c.toNat + 32) else c

/-- Embedding of Python's `s.lower()`. -/
def pyLower (s : String) : String :=
  String.mk (s.toList.map pyCharLower)

/-- Index of the last occurrence of a dot in a character list,
embedding Python's `name.rfind('.')` (`none` when absent). -/
def lastDotIndex : List Char → Option Nat
  | [] => none
  | c :: cs =>
    match lastDotIndex cs with
    | some i => some (i + 1)
    | none => if c == '.' then some 0 else none

/-- Embedding of `pathlib.PurePath.suffix` on a file name: the part
from the last dot on, provided that dot is neither the first nor the
last character; otherwise the empty string. -/
def pathSuffix (name : String) : String :=
  let cs := name.toList
  match lastDotIndex cs with
  | some i => if 0 < i ∧ i < cs.length - 1 then String.mk (cs.drop i) else ""
  | none => ""

/-- `models.FileStats`: statistics of a single analyzed file.  The
line counts are Python ints, hence `Int`. -/
structure FileStats where
  path : String
  total_lines : Int := 0
  code_lines : Int := 0
  comment_lines : Int := 0
  blank_lines : Int := 0
  language : String := "unknown"
  has_docstring : Option Bool := none
  num_classes : Option Int := none
  num_functions : Option Int := none
deriving DecidableEq, Repr

/-- `FileStats.code_percentage`: 0 when `total_lines` is 0, else
`(code_lines / total_lines) * 100` (Python float modelled as `ℚ`). -/
def FileStats.code_percentage (fs : FileStats) : ℚ :=
  if fs.total_lines = 0 then 0
  else ((fs.code_lines : ℚ) / (fs.total_lines : ℚ)) * 100

/-- `FileStats.comment_percentage`: 0 when `total_lines` is 0, else
`(comment_lines / total_lines) * 100`. -/
def FileStats.comment_percentage (fs : FileStats) : ℚ :=
  if fs.total_lines = 0 then 0
  else ((fs.comment_lines : ℚ) / (fs.total_lines : ℚ)) * 100

/-- Languages of the `c_style` group of `COMMENT_SYNTAX`. -/
def cStyleLanguages : List String :=
  ["JavaScript", "TypeScript", "C", "C++", "C#", "Java",
   "Kotlin", "Scala", "Go", "Rust", "Swift", "Dart", "PHP", "Groovy"]

/-- Languages of the `hash_style` group of `COMMENT_SYNTAX`. -/
def hashStyleLanguages : List String :=
  ["Python", "Ruby", "Shell", "Bash", "Zsh", "Fish",
   "Perl", "R", "YAML", "TOML", "Elixir"]

/-- Languages of the `dash_style` group of `COMMENT_SYNTAX`. -/
def dashStyleLanguages : List String :=
  ["SQL", "Lua", "Haskell"]

/-- Languages of the `markup_style` group of `COMMENT_SYNTAX`. -/
def markupStyleLanguages : List String :=
  ["HTML", "XML"]

/-- Languages of the `css_style` group of `COMMENT_SYNTAX`. -/
def cssStyleLanguages : List String :=
  ["CSS", "SCSS", "Sass", "Less"]

/-- `LanguageConfig.get_single_line_markers`: the single-line comment
marker strings configured for a language (empty for unknown ones). -/
def getSingleLineMarkers (language : String) : List String :=
  if cStyleLanguages.contains language then ["//"]
  else if hashStyleLanguages.contains language then ["#"]
  else if dashStyleLanguages.contains language then ["--"]
  else if markupStyleLanguages.contains language then []
  else if cssStyleLanguages.contains language then []
  else []

/-- `LanguageConfig.get_multi_line_markers`: the multi-line comment
marker descriptors configured for a language. -/
def getMultiLineMarkers (language : String) : List String :=
  if cStyleLanguages.contains language then ["/* */"]
  else if hashStyleLanguages.contains language then []
  else if dashStyleLanguages.contains language then []
  else if markupStyleLanguages.contains language then ["<!-- -->"]
  else if cssStyleLanguages.contains language then ["/* */"]
  else []

/-- `LanguageConfig.supports_multi_line_comments`. -/
def supportsMultiLineComments (language : String) : Bool :=
  0 < (getMultiLineMarkers language).length

/-- `LanguageConfig.is_comment_start`: whether the (already stripped)
line starts with one of the language's single-line markers. -/
def isCommentStart (line language : String) : Bool :=
  (getSingleLineMarkers language).any (fun marker => pyStartsWith line marker)

/-- Loop body of `LanguageConfig.has_multiline_start` over the
language's multi-line marker descriptors. -/
def hasMultilineStartGo (line : String) : List String → Bool × String
  | [] => (false, "")
  | m :: ms =>
    if m == "/* */" then
      if strContains line "/*" then (true, "*/") else hasMultilineStartGo line ms
    else if m == "<!-- -->" then
      if strContains line "<!--" then (true, "-->") else hasMultilineStartGo line ms
    else hasMultilineStartGo line ms

/-- `LanguageConfig.has_multiline_start`: whether the line contains a
multi-line comment opening token, paired with the closing token. -/
def hasMultilineStart (line language : String) : Bool × String :=
  hasMultilineStartGo line (getMultiLineMarkers language)

/-- `LanguageConfig.has_multiline_end`: `end_marker in line` when the
marker is nonempty, false otherwise. -/
def hasMultilineEnd (line endMarker : String) : Bool :=
  if endMarker == "" then false else strContains line endMarker

/-- The mutable state of the comment-counting loop in
`GenericAnalyzer.analyze`: the running comment count, the
`in_multiline_comment` flag and the remembered end marker. -/
structure ScanState where
  commentLines : Nat
  inMultilineComment : Bool
  multilineEndMarker : String
deriving DecidableEq, Repr

/-- One iteration of the `for line in lines` loop of
`GenericAnalyzer.analyze`, acting on the scan state. -/
def classifyLine (language : String) (st : ScanState) (line : String) : ScanState :=
  let stripped := pyStrip line
  if stripped == "" then st
  else if supportsMultiLineComments language then
    if st.inMultilineComment then
      if hasMultilineEnd stripped st.multilineEndMarker then
        ⟨st.commentLines + 1, false, ""⟩
      else
        ⟨st.commentLines + 1, true, st.multilineEndMarker⟩
    else
      let p := hasMultilineStart stripped language
      if p.1 then
        if hasMultilineEnd stripped p.2 then
          ⟨st.commentLines + 1, st.inMultilineComment, st.multilineEndMarker⟩
        else
          ⟨st.commentLines + 1, true, p.2⟩
      else if isCommentStart stripped language then
        ⟨st.commentLines + 1, st.inMultilineComment, st.multilineEndMarker⟩
      else st
  else if isCommentStart stripped language then
    ⟨st.commentLines + 1, st.inMultilineComment, st.multilineEndMarker⟩
  else st

/-- Blank-line count of `BaseAnalyzer._count_lines`: the number of
lines whose stripped text is empty. -/
def blankCount (lines : List String) : Nat :=
  (lines.filter (fun l => pyStrip l == "")).length

/-- The comment-line count computed by the scanning loop of
`GenericAnalyzer.analyze`, starting from the initial state. -/
def genericCommentCount (language : String) (lines : List String) : Nat :=
  (lines.foldl (classifyLine language) ⟨0, false, ""⟩).commentLines

/-- `GenericAnalyzer.analyze`, given the language determined from the
file extension and the lines returned by `_count_lines` (file reading
is external I/O, so the lines are a parameter). -/
def genericAnalyze (path language : String) (lines : List String) : FileStats :=
  let total := lines.length
  let blank := blankCount lines
  if total = 0 then
    { path := path, total_lines := 0, code_lines := 0, comment_lines := 0,
      blank_lines := 0, language := language }
  else
    let comment := genericCommentCount language lines
    let code : Int := (total : Int) - (blank : Int) - (comment : Int)
    { path := path, total_lines := (total : Int), code_lines := code,
      comment_lines := (comment : Int), blank_lines := (blank : Int),
      language := language }

/-- `PythonAnalyzer.analyze`, given the lines returned by
`_count_lines` and the outputs of the external helpers: the
tokenizer-based comment-line count `comment_lines` (a set size, hence
a `Nat`) and the AST metadata triple. -/
def pythonAnalyze (path : String) (lines : List String) (comment_lines : Nat)
    (has_docstring : Bool) (num_classes num_functions : Int) : FileStats :=
  let total := lines.length
  let blank := blankCount lines
  if total = 0 then
    { path := path, total_lines := 0, code_lines := 0, comment_lines := 0,
      blank_lines := 0, language := "Python", has_docstring := some false,
      num_classes := some 0, num_functions := some 0 }
  else
    let code : Int := (total : Int) - (blank : Int) - (comment_lines : Int)
    let code := if code < 0 then 0 else code
    { path := path, total_lines := (total : Int), code_lines := code,
      comment_lines := (comment_lines : Int), blank_lines := (blank : Int),
      language := "Python", has_docstring := some has_docstring,
      num_classes := some num_classes, num_functions := some num_functions }

/-- `models.DirectoryStats`: a directory node with its direct files
and its immediate subdirectories. -/
inductive DirectoryStats where
  | mk (path : String) (files : List FileStats) (subdirectories : List DirectoryStats)

/-- The `path` field of a `DirectoryStats`. -/
def DirectoryStats.path : DirectoryStats → String
  | .mk p _ _ => p

/-- The `files` field of a `DirectoryStats`. -/
def DirectoryStats.files : DirectoryStats → List FileStats
  | .mk _ fs _ => fs

/-- The `subdirectories` field of a `DirectoryStats`. -/
def DirectoryStats.subdirectories : DirectoryStats → List DirectoryStats
  | .mk _ _ subs => subs

mutual

/-- `DirectoryStats.total_files`: recursive file count, recomputed on
each query. -/
def DirectoryStats.total_files : DirectoryStats → Nat
  | .mk _ fs subs => fs.length + totalFilesList subs

/-- Recursive file count summed over a list of subdirectories. -/
def totalFilesList : List DirectoryStats → Nat
  | [] => 0
  | d :: ds => d.total_files + totalFilesList ds

end

mutual

/-- `DirectoryStats.total_lines`: recursive line count. -/
def DirectoryStats.total_lines : DirectoryStats → Int
  | .mk _ fs subs => (fs.map FileStats.total_lines).sum + totalLinesList subs

/-- Recursive line count summed over a list of subdirectories. -/
def totalLinesList : List DirectoryStats → Int
  | [] => 0
  | d :: ds => d.total_lines + totalLinesList ds

end

mutual

/-- `DirectoryStats.total_code_lines`: recursive code-line count. -/
def DirectoryStats.total_code_lines : DirectoryStats → Int
  | .mk _ fs subs => (fs.map FileStats.code_lines).sum + totalCodeLinesList subs

/-- Recursive code-line count summed over subdirectories. -/
def totalCodeLinesList : List DirectoryStats → Int
  | [] => 0
  | d :: ds => d.total_code_lines + totalCodeLinesList ds

end

mutual

/-- `DirectoryStats.total_comment_lines`: recursive comment count. -/
def DirectoryStats.total_comment_lines : DirectoryStats → Int
  | .mk _ fs subs => (fs.map FileStats.comment_lines).sum + totalCommentLinesList subs

/-- Recursive comment count summed over subdirectories. -/
def totalCommentLinesList : List DirectoryStats → Int
  | [] => 0
  | d :: ds => d.total_comment_lines + totalCommentLinesList ds

end

mutual

/-- `DirectoryStats.total_blank_lines`: recursive blank count. -/
def DirectoryStats.total_blank_lines : DirectoryStats → Int
  | .mk _ fs subs => (fs.map FileStats.blank_lines).sum + totalBlankLinesList subs

/-- Recursive blank count summed over subdirectories. -/
def totalBlankLinesList : List DirectoryStats → Int
  | [] => 0
  | d :: ds => d.total_blank_lines + totalBlankLinesList ds

end

/-- `DirectoryStats.code_percentage`: 0 on an empty tree, else the
recursive code share times 100. -/
def DirectoryStats.code_percentage (d : DirectoryStats) : ℚ :=
  if d.total_lines = 0 then 0
  else ((d.total_code_lines : ℚ) / (d.total_lines : ℚ)) * 100

/-- `DirectoryStats.comment_percentage`. -/
def DirectoryStats.comment_percentage (d : DirectoryStats) : ℚ :=
  if d.total_lines = 0 then 0
  else ((d.total_comment_lines : ℚ) / (d.total_lines : ℚ)) * 100

/-- `DirectoryStats.blank_percentage`. -/
def DirectoryStats.blank_percentage (d : DirectoryStats) : ℚ :=
  if d.total_lines = 0 then 0
  else ((d.total_blank_lines : ℚ) / (d.total_lines : ℚ)) * 100

mutual

/-- All files anywhere beneath a node (direct files first, then the
subdirectories in order); the reference meaning of the recursive
aggregates. -/
def allFilesD : DirectoryStats → List FileStats
  | .mk _ fs subs => fs ++ allFilesList subs

/-- All files beneath a list of subdirectories. -/
def allFilesList : List DirectoryStats → List FileStats
  | [] => []
  | d :: ds => allFilesD d ++ allFilesList ds

end

mutual

/-- Every node of a directory tree, the root included. -/
def allNodes : DirectoryStats → List DirectoryStats
  | .mk p fs subs => .mk p fs subs :: allNodesList subs

/-- Every node of a list of directory trees. -/
def allNodesList : List DirectoryStats → List DirectoryStats
  | [] => []
  | d :: ds => allNodes d ++ allNodesList ds

end

/-- Stable insertion into a list sorted non-increasingly by
`total_lines`: the new file goes before the first file whose count is
not larger.  Together with `pySortDesc` this realises the contract of
Python's stable `list.sort(key=lambda f: f.total_lines, reverse=True)`
in `DirectoryStats.sort_files_by_size`. -/
def insertFileDesc (f : FileStats) : List FileStats → List FileStats
  | [] => [f]
  | g :: gs =>
    if f.total_lines < g.total_lines then g :: insertFileDesc f gs
    else f :: g :: gs

/-- Stable descending sort by `total_lines` (model of Python's stable
sort with `reverse=True`). -/
def pySortDesc : List FileStats → List FileStats
  | [] => []
  | f :: fs => insertFileDesc f (pySortDesc fs)

mutual

/-- `DirectoryStats.sort_files_by_size` (the Python method mutates the
tree in place; the embedding returns the updated tree). -/
def DirectoryStats.sort_files_by_size : DirectoryStats → DirectoryStats
  | .mk p fs subs => .mk p (pySortDesc fs) (sortSubdirs subs)

/-- Recursive sorting of the subdirectory list. -/
def sortSubdirs : List DirectoryStats → List DirectoryStats
  | [] => []
  | d :: ds => d.sort_files_by_size :: sortSubdirs ds

end

/-- A filesystem entry as seen by `ProjectAnalyzer`: a file carries
the outcome of running its analyzer (`Except.error` when the analyzer
raises, which `_analyze_file` catches); a directory carries whether
listing it raises `PermissionError` and its listed entries. -/
inductive FSEntry where
  | file (name : String) (outcome : Except Unit FileStats)
  | dir (name : String) (denied : Bool) (entries : List FSEntry)

/-- `ProjectAnalyzer.IGNORED_DIRS` (the built-in ignore set). -/
def ignoredDirs : List String :=
  ["venv", "env", ".venv", "__pycache__", ".eggs", "build", "dist",
   "*.egg-info", ".pytest_cache", ".tox", ".mypy_cache",
   "node_modules", ".npm",
   ".git", ".svn", ".hg", ".bzr",
   ".idea", ".vscode", ".vs", ".eclipse", ".settings",
   "target", "out", "bin", "obj",
   ".cache", "tmp", "temp", "logs", "coverage"]

/-- `PythonAnalyzer.supported_extensions`. -/
def pythonExtensions : List String := [".py", ".pyw", ".pyi"]

/-- `GenericAnalyzer.supported_extensions`: the keys of
`LANGUAGE_MAP`. -/
def genericExtensions : List String :=
  [".js", ".jsx", ".ts", ".tsx", ".mjs", ".cjs",
   ".html", ".htm", ".css", ".scss", ".sass", ".less",
   ".c", ".h", ".cpp", ".cc", ".cxx", ".hpp", ".hh", ".hxx", ".cs",
   ".java", ".kt", ".kts", ".scala", ".groovy",
   ".go", ".rs", ".swift",
   ".rb", ".php", ".pl", ".lua", ".sh", ".bash", ".zsh", ".fish",
   ".sql", ".json", ".yaml", ".yml", ".xml", ".toml",
   ".r", ".R",
   ".m", ".mm",
   ".dart", ".ex", ".exs", ".erl", ".hrl", ".hs", ".lhs",
   ".vim", ".el",
   ".clj", ".cljs", ".lisp", ".scm"]

/-- `BaseAnalyzer.can_analyze` for the two registered analyzers
(`PythonAnalyzer` first, then `GenericAnalyzer`): whether any of them
claims the file's lowercased extension. -/
def anyAnalyzerCan (name : String) : Bool :=
  pythonExtensions.contains (pyLower (pathSuffix name))
    || genericExtensions.contains (pyLower (pathSuffix name))

/-- `ProjectAnalyzer._should_ignore_dir`: built-in or caller-supplied
ignore names, plus hidden directories. -/
def shouldIgnoreDir (extraIgnore : List String) (name : String) : Bool :=
  if (ignoredDirs ++ extraIgnore).contains name then true
  else if pyStartsWith name "." && !([".", ".."].contains name) then true
  else false

/-- `ProjectAnalyzer._should_analyze_file`: hidden files are skipped;
a truthy explicit extension set filters by membership; otherwise a
file is analyzed when some registered analyzer claims it (Python's
`if self.file_extensions:` treats an empty set as falsy). -/
def shouldAnalyzeFile (exts : Option (List String)) (name : String) : Bool :=
  if pyStartsWith name "." then false
  else
    match exts with
    | some l => if l.isEmpty then anyAnalyzerCan name else l.contains (pyLower (pathSuffix name))
    | none => anyAnalyzerCan name

mutual

/-- The contribution of a single entry of the loop body of
`ProjectAnalyzer._analyze_directory`: a file contributes its
statistics when it should be analyzed and its analyzer does not
raise; a subdirectory contributes its node unless it is ignored or
prunes to zero files; a denied subdirectory yields an empty node
(which the `total_files > 0` guard then prunes). -/
def walkEntry (exts : Option (List String)) (extraIgnore : List String) :
    FSEntry → List FileStats × List DirectoryStats
  | FSEntry.file name outcome =>
    if shouldAnalyzeFile exts name then
      match outcome with
      | .ok fs => ([fs], [])
      | .error _ => ([], [])
    else ([], [])
  | FSEntry.dir name denied entries =>
    if shouldIgnoreDir extraIgnore name then ([], [])
    else
      let sub :=
        if denied then DirectoryStats.mk name [] []
        else
          let p := walkEntries exts extraIgnore entries
          DirectoryStats.mk name p.1 p.2
      if 0 < sub.total_files then ([], [sub]) else ([], [])

/-- The loop of `ProjectAnalyzer._analyze_directory` folded over the
directory listing: the accumulated `files` and `subdirectories` lists
in encounter order. -/
def walkEntries (exts : Option (List String)) (extraIgnore : List String) :
    List FSEntry → List FileStats × List DirectoryStats
  | [] => ([], [])
  | e :: es =>
    ((walkEntry exts extraIgnore e).1 ++ (walkEntries exts extraIgnore es).1,
     (walkEntry exts extraIgnore e).2 ++ (walkEntries exts extraIgnore es).2)

end

/-- `ProjectAnalyzer._analyze_directory` on one directory: a
`PermissionError` from `iterdir` yields empty statistics, otherwise
the listing is folded by `walkEntries`. -/
def analyzeDirectory (exts : Option (List String)) (extraIgnore : List String)
    (name : String) (denied : Bool) (entries : List FSEntry) : DirectoryStats :=
  if denied then DirectoryStats.mk name [] []
  else
    let p := walkEntries exts extraIgnore entries
    DirectoryStats.mk name p.1 p.2

/-- The exceptions `ProjectAnalyzer.analyze` can raise. -/
inductive PyError where
  | fileNotFound
  | notADirectory
deriving DecidableEq, Repr

/-- `ProjectAnalyzer.analyze`: validate the root, analyze the tree,
sort files by size, return the root statistics.  `rootExists` and
`rootIsDir` model the two `self.root_path` checks; the root directory
content is the `(rootDenied, rootEntries)` pair. -/
def ProjectAnalyzer.analyze (rootExists rootIsDir : Bool)
    (exts : Option (List String)) (extraIgnore : List String)
    (rootName : String) (rootDenied : Bool) (rootEntries : List FSEntry) :
    Except PyError DirectoryStats :=
  if !rootExists then .error .fileNotFound
  else if !rootIsDir then .error .notADirectory
  else .ok (analyzeDirectory exts extraIgnore rootName rootDenied rootEntries).sort_files_by_size

/-- Pruning invariant of the result tree: every node's attached
subdirectories have a positive recursive file count. -/
def PrunedTree (d : DirectoryStats) : Prop :=
  ∀ n ∈ allNodes d, ∀ s ∈ n.subdirectories, 0 < s.total_files

theorem totalFilesList_eq_map_sum : ∀ ds : List DirectoryStats,
    totalFilesList ds = (ds.map DirectoryStats.total_files).sum
  | [] => rfl
  | d :: ds => by
    rw [totalFilesList, List.map_cons, List.sum_cons, totalFilesList_eq_map_sum ds]

theorem totalLinesList_eq_map_sum : ∀ ds : List DirectoryStats,
    totalLinesList ds = (ds.map DirectoryStats.total_lines).sum
  | [] => rfl
  | d :: ds => by
    rw [totalLinesList, List.map_cons, List.sum_cons, totalLinesList_eq_map_sum ds]

theorem totalCodeLinesList_eq_map_sum : ∀ ds : List DirectoryStats,
    totalCodeLinesList ds = (ds.map DirectoryStats.total_code_lines).sum
  | [] => rfl
  | d :: ds => by
    rw [totalCodeLinesList, List.map_cons, List.sum_cons, totalCodeLinesList_eq_map_sum ds]

theorem totalCommentLinesList_eq_map_sum : ∀ ds : List DirectoryStats,
    totalCommentLinesList ds = (ds.map DirectoryStats.total_comment_lines).sum
  | [] => rfl
  | d :: ds => by
    rw [totalCommentLinesList, List.map_cons, List.sum_cons, totalCommentLinesList_eq_map_sum ds]

theorem totalBlankLinesList_eq_map_sum : ∀ ds : List DirectoryStats,
    totalBlankLinesList ds = (ds.map DirectoryStats.total_blank_lines).sum
  | [] => rfl
  | d :: ds => by
    rw [totalBlankLinesList, List.map_cons, List.sum_cons, totalBlankLinesList_eq_map_sum ds]

mutual

theorem total_files_eq_allFiles : ∀ d : DirectoryStats,
    d.total_files = (allFilesD d).length
  | .mk p fs subs => by
    rw [DirectoryStats.total_files, allFilesD, List.length_append,
      totalFilesList_eq_allFilesList subs]

theorem totalFilesList_eq_allFilesList : ∀ ds : List DirectoryStats,
    totalFilesList ds = (allFilesList ds).length
  | [] => rfl
  | d :: ds => by
    rw [totalFilesList, allFilesList, List.length_append,
      total_files_eq_allFiles d, totalFilesList_eq_allFilesList ds]

end

mutual

theorem total_lines_eq_allFiles : ∀ d : DirectoryStats,
    d.total_lines = ((allFilesD d).map FileStats.total_lines).sum
  | .mk p fs subs => by
    rw [DirectoryStats.total_lines, allFilesD, List.map_append, List.sum_append,
      totalLinesList_eq_allFilesList subs]

theorem totalLinesList_eq_allFilesList : ∀ ds : List DirectoryStats,
    totalLinesList ds = ((allFilesList ds).map FileStats.total_lines).sum
  | [] => rfl
  | d :: ds => by
    rw [totalLinesList, allFilesList, List.map_append, List.sum_append,
      total_lines_eq_allFiles d, totalLinesList_eq_allFilesList ds]

end

mutual

theorem total_code_lines_eq_allFiles : ∀ d : DirectoryStats,
    d.total_code_lines = ((allFilesD d).map FileStats.code_lines).sum
  | .mk p fs subs => by
    rw [DirectoryStats.total_code_lines, allFilesD, List.map_append, List.sum_append,
      totalCodeLinesList_eq_allFilesList subs]

theorem totalCodeLinesList_eq_allFilesList : ∀ ds : List DirectoryStats,
    totalCodeLinesList ds = ((allFilesList ds).map FileStats.code_lines).sum
  | [] => rfl
  | d :: ds => by
    rw [totalCodeLinesList, allFilesList, List.map_append, List.sum_append,
      total_code_lines_eq_allFiles d, totalCodeLinesList_eq_allFilesList ds]

end

mutual

theorem total_comment_lines_eq_allFiles : ∀ d : DirectoryStats,
    d.total_comment_lines = ((allFilesD d).map FileStats.comment_lines).sum
  | .mk p fs subs => by
    rw [DirectoryStats.total_comment_lines, allFilesD, List.map_append, List.sum_append,
      totalCommentLinesList_eq_allFilesList subs]

theorem totalCommentLinesList_eq_allFilesList : ∀ ds : List DirectoryStats,
    totalCommentLinesList ds = ((allFilesList ds).map FileStats.comment_lines).sum
  | [] => rfl
  | d :: ds => by
    rw [totalCommentLinesList, allFilesList, List.map_append, List.sum_append,
      total_comment_lines_eq_allFiles d, totalCommentLinesList_eq_allFilesList ds]

end

mutual

theorem total_blank_lines_eq_allFiles : ∀ d : DirectoryStats,
    d.total_blank_lines = ((allFilesD d).map FileStats.blank_lines).sum
  | .mk p fs subs => by
    rw [DirectoryStats.total_blank_lines, allFilesD, List.map_append, List.sum_append,
      totalBlankLinesList_eq_allFilesList subs]

theorem totalBlankLinesList_eq_allFilesList : ∀ ds : List DirectoryStats,
    totalBlankLinesList ds = ((allFilesList ds).map FileStats.blank_lines).sum
  | [] => rfl
  | d :: ds => by
    rw [totalBlankLinesList, allFilesList, List.map_append, List.sum_append,
      total_blank_lines_eq_allFiles d, totalBlankLinesList_eq_allFilesList ds]

end

/-- C2: on every `DirectoryStats` node, each of the five aggregates
equals the sum of that metric over the node's direct files plus the
sum of the same aggregate over its immediate subdirectories, and
hence (second conjunct) equals the metric summed over every file in
the whole subtree.  The aggregates are ordinary recursive functions,
recomputed at each call, with no cache in the model or in the code. -/
theorem spec_c2_directory_aggregates :
    (∀ (p : String) (fs : List FileStats) (subs : List DirectoryStats),
      (DirectoryStats.mk p fs subs).total_files
          = fs.length + (subs.map DirectoryStats.total_files).sum
        ∧ (DirectoryStats.mk p fs subs).total_lines
          = (fs.map FileStats.total_lines).sum + (subs.map DirectoryStats.total_lines).sum
        ∧ (DirectoryStats.mk p fs subs).total_code_lines
          = (fs.map FileStats.code_lines).sum + (subs.map DirectoryStats.total_code_lines).sum
        ∧ (DirectoryStats.mk p fs subs).total_comment_lines
          = (fs.map FileStats.comment_lines).sum + (subs.map DirectoryStats.total_comment_lines).sum
        ∧ (DirectoryStats.mk p fs subs).total_blank_lines
          = (fs.map FileStats.blank_lines).sum + (subs.map DirectoryStats.total_blank_lines).sum)
    ∧ (∀ d : DirectoryStats,
      d.total_files = (allFilesD d).length
        ∧ d.total_lines = ((allFilesD d).map FileStats.total_lines).sum
        ∧ d.total_code_lines = ((allFilesD d).map FileStats.code_lines).sum
        ∧ d.total_comment_lines = ((allFilesD d).map FileStats.comment_lines).sum
        ∧ d.total_blank_lines = ((allFilesD d).map FileStats.blank_lines).sum) := by
  constructor
  · intro p fs subs
    refine ⟨?_, ?_, ?_, ?_, ?_⟩
    · rw [DirectoryStats.total_files, totalFilesList_eq_map_sum]
    · rw [DirectoryStats.total_lines, totalLinesList_eq_map_sum]
    · rw [DirectoryStats.total_code_lines, totalCodeLinesList_eq_map_sum]
    · rw [DirectoryStats.total_comment_lines, totalCommentLinesList_eq_map_sum]
    · rw [DirectoryStats.total_blank_lines, totalBlankLinesList_eq_map_sum]
  · intro d
    exact ⟨total_files_eq_allFiles d, total_lines_eq_allFiles d,
      total_code_lines_eq_allFiles d, total_comment_lines_eq_allFiles d,
      total_blank_lines_eq_allFiles d⟩

/-- C8: every percentage property returns 0 when the relevant total
is 0 and otherwise the part over the total times 100 — for
`FileStats` over its own counts, for `DirectoryStats` over the
recursive aggregates (Python floats modelled as exact rationals). -/
theorem spec_c8_percentages :
    (∀ fs : FileStats,
      (fs.total_lines = 0 → fs.code_percentage = 0 ∧ fs.comment_percentage = 0)
        ∧ (fs.total_lines ≠ 0 →
          fs.code_percentage = ((fs.code_lines : ℚ) / (fs.total_lines : ℚ)) * 100
            ∧ fs.comment_percentage = ((fs.comment_lines : ℚ) / (fs.total_lines : ℚ)) * 100))
    ∧ (∀ d : DirectoryStats,
      (d.total_lines = 0 →
        d.code_percentage = 0 ∧ d.comment_percentage = 0 ∧ d.blank_percentage = 0)
        ∧ (d.total_lines ≠ 0 →
          d.code_percentage = ((d.total_code_lines : ℚ) / (d.total_lines : ℚ)) * 100
            ∧ d.comment_percentage = ((d.total_comment_lines : ℚ) / (d.total_lines : ℚ)) * 100
            ∧ d.blank_percentage = ((d.total_blank_lines : ℚ) / (d.total_lines : ℚ)) * 100)) := by
  constructor
  · intro fs
    constructor
    · intro h
      simp [FileStats.code_percentage, FileStats.comment_percentage, h]
    · intro h
      simp [FileStats.code_percentage, FileStats.comment_percentage, h]
  · intro d
    constructor
    · intro h
      simp [DirectoryStats.code_percentage, DirectoryStats.comment_percentage,
        DirectoryStats.blank_percentage, h]
    · intro h
      simp [DirectoryStats.code_percentage, DirectoryStats.comment_percentage,
        DirectoryStats.blank_percentage, h]

/-- Witness for C8 at concrete inputs: a 4-line file with 2 code
lines and a directory over it, and an empty file. -/
theorem spec_c8_percentages_witness :
    (({ path := "w", total_lines := 4, code_lines := 2, comment_lines := 1,
        blank_lines := 1 } : FileStats).code_percentage = ((2 : ℚ) / 4) * 100)
      ∧ (({ path := "e" } : FileStats).code_percentage = 0)
      ∧ ((DirectoryStats.mk "d"
          [{ path := "w", total_lines := 4, code_lines := 2, comment_lines := 1,
             blank_lines := 1 }] []).blank_percentage = ((1 : ℚ) / 4) * 100) := by
  refine ⟨?_, ?_, ?_⟩
  · exact ((spec_c8_percentages.1 _).2 (by decide)).1
  · exact ((spec_c8_percentages.1 _).1 (by decide)).1
  · have h := (spec_c8_percentages.2 (DirectoryStats.mk "d"
      [{ path := "w", total_lines := 4, code_lines := 2, comment_lines := 1,
         blank_lines := 1 }] [])).2
    have ht : (DirectoryStats.mk "d"
        [{ path := "w", total_lines := 4, code_lines := 2, comment_lines := 1,
           blank_lines := 1 }] []).total_lines = 4 := by decide
    have hb : (DirectoryStats.mk "d"
        [{ path := "w", total_lines := 4, code_lines := 2, comment_lines := 1,
           blank_lines := 1 }] []).total_blank_lines = 1 := by decide
    rw [(h (by rw [ht]; decide)).2.2, ht, hb]
    norm_num

theorem classifyLine_commentLines_le (language : String) (st : ScanState) (l : String) :
    (classifyLine language st l).commentLines
      ≤ st.commentLines + (if pyStrip l == "" then 0 else 1) := by
  unfold classifyLine
  dsimp only
  split_ifs <;> simp_all

theorem foldl_classify_le : ∀ (lines : List String) (language : String) (st : ScanState),
    (lines.foldl (classifyLine language) st).commentLines
      ≤ st.commentLines + (lines.filter (fun l => !(pyStrip l == ""))).length
  | [], _, _ => by simp
  | l :: ls, language, st => by
    rw [List.foldl_cons, List.filter_cons]
    have h1 := foldl_classify_le ls language (classifyLine language st l)
    have h2 := classifyLine_commentLines_le language st l
    by_cases hb : (pyStrip l == "") = true
    · simp only [hb, if_pos, Bool.not_true, Bool.false_eq_true, if_false] at h2 ⊢
      omega
    · simp only [Bool.not_eq_true] at hb
      simp only [hb, Bool.false_eq_true, if_false, Bool.not_false, if_true,
        List.length_cons] at h2 ⊢
      omega

theorem blank_add_nonblank (lines : List String) :
    blankCount lines + (lines.filter (fun l => !(pyStrip l == ""))).length = lines.length := by
  unfold blankCount
  induction lines with
  | nil => rfl
  | cons l ls ih =>
    rw [List.filter_cons, List.filter_cons]
    by_cases hb : (pyStrip l == "") = true
    · simp only [hb, if_pos, Bool.not_true, Bool.false_eq_true, if_false, List.length_cons]
      omega
    · simp only [Bool.not_eq_true] at hb
      simp only [hb, Bool.false_eq_true, if_false, Bool.not_false, if_true, List.length_cons]
      omega

theorem genericCommentCount_le (language : String) (lines : List String) :
    genericCommentCount language lines + blankCount lines ≤ lines.length := by
  have h := foldl_classify_le lines language ⟨0, false, ""⟩
  have h2 := blank_add_nonblank lines
  unfold genericCommentCount
  dsimp only at h
  omega

/-- C1: any file analysis by `GenericAnalyzer.analyze` satisfies
`code + comment + blank = total` with all four counts nonnegative
(the generic classifier needs no clamping: it counts at most one
comment per non-blank line); `PythonAnalyzer.analyze` satisfies the
same, where the clamp `if code_lines < 0: code_lines = 0` never
fires because the tokenizer reports comment tokens only on non-blank
lines — stated as the hypothesis `cl + blankCount lines ≤
lines.length` on the external tokenizer count. -/
theorem spec_c1_file_counts_invariant :
    (∀ (path language : String) (lines : List String),
      (genericAnalyze path language lines).code_lines
          + (genericAnalyze path language lines).comment_lines
          + (genericAnalyze path language lines).blank_lines
        = (genericAnalyze path language lines).total_lines
        ∧ 0 ≤ (genericAnalyze path language lines).code_lines
        ∧ 0 ≤ (genericAnalyze path language lines).comment_lines
        ∧ 0 ≤ (genericAnalyze path language lines).blank_lines
        ∧ 0 ≤ (genericAnalyze path language lines).total_lines)
    ∧ (∀ (path : String) (lines : List String) (cl : Nat) (hd : Bool) (nc nf : Int),
      cl + blankCount lines ≤ lines.length →
      (pythonAnalyze path lines cl hd nc nf).code_lines
          + (pythonAnalyze path lines cl hd nc nf).comment_lines
          + (pythonAnalyze path lines cl hd nc nf).blank_lines
        = (pythonAnalyze path lines cl hd nc nf).total_lines
        ∧ 0 ≤ (pythonAnalyze path lines cl hd nc nf).code_lines
        ∧ 0 ≤ (pythonAnalyze path lines cl hd nc nf).comment_lines
        ∧ 0 ≤ (pythonAnalyze path lines cl hd nc nf).blank_lines
        ∧ 0 ≤ (pythonAnalyze path lines cl hd nc nf).total_lines) := by
  constructor
  · intro path language lines
    have hle := genericCommentCount_le language lines
    unfold genericAnalyze
    dsimp only
    by_cases h0 : lines.length = 0
    · simp [h0]
    · simp only [h0, if_false]
      refine ⟨?_, ?_, ?_, ?_, ?_⟩ <;> omega
  · intro path lines cl hd nc nf h
    unfold pythonAnalyze
    dsimp only
    by_cases h0 : lines.length = 0
    · simp [h0]
    · simp only [h0, if_false]
      have hif : ¬ ((lines.length : Int) - (blankCount lines : Int) - (cl : Int) < 0) := by
        omega
      simp only [hif, if_false]
      refine ⟨?_, ?_, ?_, ?_, ?_⟩ <;> omega

/-- Witness for C1 at a concrete Python file of one code line, with
the tokenizer reporting zero comment lines. -/
theorem spec_c1_file_counts_invariant_witness :
    0 + blankCount ["x = 1"] ≤ (["x = 1"] : List String).length
      ∧ (pythonAnalyze "w.py" ["x = 1"] 0 false 0 0).code_lines
          + (pythonAnalyze "w.py" ["x = 1"] 0 false 0 0).comment_lines
          + (pythonAnalyze "w.py" ["x = 1"] 0 false 0 0).blank_lines
        = (pythonAnalyze "w.py" ["x = 1"] 0 false 0 0).total_lines :=
  ⟨by decide,
    (spec_c1_file_counts_invariant.2 "w.py" ["x = 1"] 0 false 0 0 (by decide)).1⟩

/-- C9: a whitespace-only line is skipped by the comment loop before
any state is touched — it is counted as blank, never as comment, and
leaves the `in_multiline_comment` flag and the remembered end marker
unchanged, in every scanner state (in particular inside an unclosed
multi-line comment). -/
theorem spec_c9_blank_line_neutral :
    ∀ (language : String) (st : ScanState) (l : String), pyStrip l = "" →
      classifyLine language st l = st
        ∧ (∀ pre post : List String,
          blankCount (pre ++ l :: post) = blankCount (pre ++ post) + 1)
        ∧ (∀ (pre post : List String) (st0 : ScanState),
          (pre ++ l :: post).foldl (classifyLine language) st0
            = (pre ++ post).foldl (classifyLine language) st0) := by
  intro language st l h
  have hstep : ∀ st' : ScanState, classifyLine language st' l = st' := by
    intro st'
    unfold classifyLine
    simp [h]
  refine ⟨hstep st, ?_, ?_⟩
  · intro pre post
    unfold blankCount
    simp [List.filter_append, List.filter_cons, h]
    omega
  · intro pre post st0
    rw [List.foldl_append, List.foldl_append, List.foldl_cons, hstep]

/-- Witness for C9: a tab-and-spaces line inside an open `/*` comment
leaves the state untouched. -/
theorem spec_c9_blank_line_neutral_witness :
    pyStrip " \t " = ""
      ∧ classifyLine "C" ⟨3, true, "*/"⟩ " \t " = ⟨3, true, "*/"⟩ :=
  ⟨by decide, (spec_c9_blank_line_neutral "C" ⟨3, true, "*/"⟩ " \t " (by decide)).1⟩

/-- C5: from outside a multi-line comment, a non-blank line that
contains a multi-line start marker together with its matching end
marker counts exactly once as a comment and the scanner does not set
the continuation flag (the end marker is left unchanged); the spec's
scenario `["/* one line */", "code();"]` yields comment=1, code=1. -/
theorem spec_c5_same_line_open_close :
    (∀ (language : String) (st : ScanState) (l : String),
      st.inMultilineComment = false →
      supportsMultiLineComments language = true →
      ¬ pyStrip l = "" →
      (hasMultilineStart (pyStrip l) language).1 = true →
      hasMultilineEnd (pyStrip l) (hasMultilineStart (pyStrip l) language).2 = true →
      classifyLine language st l = ⟨st.commentLines + 1, false, st.multilineEndMarker⟩)
    ∧ (genericAnalyze "f.js" "JavaScript" ["/* one line */", "code();"]).comment_lines = 1
    ∧ (genericAnalyze "f.js" "JavaScript" ["/* one line */", "code();"]).code_lines = 1 := by
  refine ⟨?_, by decide, by decide⟩
  intro language st l hin hsup hne hstart hend
  unfold classifyLine
  simp [hin, hsup, hne, hstart, hend]

/-- Witness for C5 at the line `/* one line */` in JavaScript. -/
theorem spec_c5_same_line_open_close_witness :
    supportsMultiLineComments "JavaScript" = true
      ∧ classifyLine "JavaScript" ⟨0, false, ""⟩ "/* one line */" = ⟨1, false, ""⟩ :=
  ⟨by decide,
    spec_c5_same_line_open_close.1 "JavaScript" ⟨0, false, ""⟩ "/* one line */"
      rfl (by decide) (by decide) (by decide) (by decide)⟩

/-- Counterexample to C6 as stated: in `["/*", "", "x"]` (JavaScript)
the scanner enters an unterminated multi-line comment at line 1, yet
the blank line 2 is counted as blank, not comment — the comment count
is 2, not the 3 the claim ("every remaining line of the file is
counted as a comment line") would force. -/
theorem spec_c6_counterexample :
    (genericAnalyze "f.js" "JavaScript" ["/*", "", "x"]).comment_lines = 2
      ∧ (genericAnalyze "f.js" "JavaScript" ["/*", "", "x"]).blank_lines = 1
      ∧ ¬ (genericAnalyze "f.js" "JavaScript" ["/*", "", "x"]).comment_lines = 3 := by
  decide

/-- C6 (amended): once the scanner is inside a multi-line comment
whose end marker never appears on any later line, every remaining
NON-BLANK line is counted as a comment line (blank lines stay blank),
the scanner stays in the comment state to end-of-input, and the scan
terminates normally with no error (the fold is a total function). -/
theorem spec_c6_unterminated_amended :
    ∀ (language m : String) (lines : List String) (c : Nat),
      supportsMultiLineComments language = true →
      ¬ m = "" →
      (∀ l ∈ lines, strContains (pyStrip l) m = false) →
      lines.foldl (classifyLine language) ⟨c, true, m⟩
        = ⟨c + (lines.filter (fun l => !(pyStrip l == ""))).length, true, m⟩ := by
  intro language m lines c hsup hm
  induction lines generalizing c with
  | nil => intro hend; simp
  | cons l ls ih =>
    intro hend
    have hl := hend l (List.mem_cons_self l ls)
    have hls : ∀ x ∈ ls, strContains (pyStrip x) m = false :=
      fun x hx => hend x (List.mem_cons_of_mem l hx)
    rw [List.foldl_cons, List.filter_cons]
    by_cases hb : pyStrip l = ""
    · have hstep : classifyLine language ⟨c, true, m⟩ l = ⟨c, true, m⟩ := by
        unfold classifyLine
        simp [hb]
      rw [hstep, ih c hls]
      simp [hb]
    · have hstep : classifyLine language ⟨c, true, m⟩ l = ⟨c + 1, true, m⟩ := by
        unfold classifyLine
        simp [hb, hsup, hasMultilineEnd, hm, hl]
      rw [hstep, ih (c + 1) hls]
      have hbn : (!(pyStrip l == "")) = true := by simp [hb]
      rw [hbn, if_pos rfl, List.length_cons]
      have : c + 1 + (ls.filter (fun x => !(pyStrip x == ""))).length
          = c + ((ls.filter (fun x => !(pyStrip x == ""))).length + 1) := by omega
      rw [this]

/-- Witness for C6 (amended): inside an unterminated `/*` comment,
the remaining lines `["x", ""]` contribute exactly one comment line
(the blank line stays blank) and the scan ends still in-comment. -/
theorem spec_c6_unterminated_amended_witness :
    supportsMultiLineComments "JavaScript" = true
      ∧ (["x", ""] : List String).foldl (classifyLine "JavaScript") ⟨0, true, "*/"⟩
        = ⟨1, true, "*/"⟩ := by
  refine ⟨by decide, ?_⟩
  rw [spec_c6_unterminated_amended "JavaScript" "*/" ["x", ""] 0
    (by decide) (by decide) (by decide)]
  decide


theorem walkEntries_append (exts : Option (List String)) (ign : List String) :
    ∀ as bs : List FSEntry,
      walkEntries exts ign (as ++ bs)
        = ((walkEntries exts ign as).1 ++ (walkEntries exts ign bs).1,
           (walkEntries exts ign as).2 ++ (walkEntries exts ign bs).2)
  | [], bs => by simp [walkEntries]
  | e :: as, bs => by
    simp [walkEntries, walkEntries_append exts ign as bs]

theorem walk_file_omitted (exts : Option (List String)) (ign : List String)
    (name : String) (outcome : Except Unit FileStats)
    (hskip : shouldAnalyzeFile exts name = false ∨ ∃ e, outcome = Except.error e) :
    ∀ pre post : List FSEntry,
      walkEntries exts ign (pre ++ FSEntry.file name outcome :: post)
        = walkEntries exts ign (pre ++ post) := by
  have hentry : walkEntry exts ign (FSEntry.file name outcome) = ([], []) := by
    rcases hskip with h | ⟨e, he⟩
    · simp [walkEntry, h]
    · subst he
      by_cases h : shouldAnalyzeFile exts name = true <;> simp [walkEntry, h]
  intro pre post
  rw [walkEntries_append, walkEntries_append]
  simp [walkEntries, hentry]

/-- C3: `ProjectAnalyzer.analyze` fails exactly on the two root
conditions — `FileNotFoundError` when the root does not exist,
`NotADirectoryError` when it is not a directory — and otherwise
returns a result for every filesystem tree, whatever per-file or
per-directory errors the tree contains; a file whose analyzer raises
is merely omitted from the results, and a directory whose listing
raises `PermissionError` yields empty statistics while the scan of
its siblings continues. -/
theorem spec_c3_error_containment :
    (∀ (rootIsDir : Bool) (exts : Option (List String)) (ign : List String)
        (rootName : String) (rootDenied : Bool) (rootEntries : List FSEntry),
      ProjectAnalyzer.analyze false rootIsDir exts ign rootName rootDenied rootEntries
        = Except.error PyError.fileNotFound)
    ∧ (∀ (exts : Option (List String)) (ign : List String)
        (rootName : String) (rootDenied : Bool) (rootEntries : List FSEntry),
      ProjectAnalyzer.analyze true false exts ign rootName rootDenied rootEntries
        = Except.error PyError.notADirectory)
    ∧ (∀ (exts : Option (List String)) (ign : List String)
        (rootName : String) (rootDenied : Bool) (rootEntries : List FSEntry),
      ∃ d, ProjectAnalyzer.analyze true true exts ign rootName rootDenied rootEntries
        = Except.ok d)
    ∧ (∀ (exts : Option (List String)) (ign : List String) (name : String)
        (e : Unit) (pre post : List FSEntry),
      walkEntries exts ign (pre ++ FSEntry.file name (Except.error e) :: post)
        = walkEntries exts ign (pre ++ post))
    ∧ (∀ (exts : Option (List String)) (ign : List String) (name : String)
        (entries : List FSEntry),
      analyzeDirectory exts ign name true entries = DirectoryStats.mk name [] []
        ∧ ∀ es : List FSEntry,
          walkEntries exts ign (FSEntry.dir name true entries :: es)
            = walkEntries exts ign es) := by
  refine ⟨?_, ?_, ?_, ?_, ?_⟩
  · intro rootIsDir exts ign rootName rootDenied rootEntries
    simp [ProjectAnalyzer.analyze]
  · intro exts ign rootName rootDenied rootEntries
    simp [ProjectAnalyzer.analyze]
  · intro exts ign rootName rootDenied rootEntries
    exact ⟨(analyzeDirectory exts ign rootName rootDenied rootEntries).sort_files_by_size,
      by simp [ProjectAnalyzer.analyze]⟩
  · intro exts ign name e pre post
    exact walk_file_omitted exts ign name (Except.error e) (Or.inr ⟨e, rfl⟩) pre post
  · intro exts ign name entries
    have hdent : walkEntry exts ign (FSEntry.dir name true entries) = ([], []) := by
      by_cases hig : shouldIgnoreDir ign name = true
      · simp [walkEntry, hig]
      · simp [walkEntry, hig, DirectoryStats.total_files, totalFilesList]
    refine ⟨by simp [analyzeDirectory], ?_⟩
    intro es
    simp [walkEntries, hdent]

/-- C10: a file whose extension lowercases to `.md` or `.markdown` is
never analyzed when no explicit extension set is given — neither
registered analyzer (`PythonAnalyzer`, `GenericAnalyzer`) claims those
extensions (`MarkdownAnalyzer` is never added to the analyzer list in
`ProjectAnalyzer.__init__`) — so such a file contributes nothing to
the resulting statistics tree. -/
theorem spec_c10_markdown_never_analyzed :
    ∀ name : String,
      (pyLower (pathSuffix name) = ".md" ∨ pyLower (pathSuffix name) = ".markdown") →
      shouldAnalyzeFile none name = false
        ∧ ∀ (ign : List String) (outcome : Except Unit FileStats) (pre post : List FSEntry),
          walkEntries none ign (pre ++ FSEntry.file name outcome :: post)
            = walkEntries none ign (pre ++ post) := by
  intro name h
  have hskip : shouldAnalyzeFile none name = false := by
    unfold shouldAnalyzeFile anyAnalyzerCan
    rcases h with h | h <;> rw [h] <;>
      by_cases hh : pyStartsWith name "." = true <;> simp [hh] <;> decide
  exact ⟨hskip, fun ign outcome pre post =>
    walk_file_omitted none ign name outcome (Or.inl hskip) pre post⟩

/-- Witness for C10 at the file name `README.md`. -/
theorem spec_c10_markdown_never_analyzed_witness :
    pyLower (pathSuffix "README.md") = ".md"
      ∧ shouldAnalyzeFile none "README.md" = false :=
  ⟨by decide,
    (spec_c10_markdown_never_analyzed "README.md" (Or.inl (by decide))).1⟩

theorem perm_insertFileDesc (f : FileStats) : ∀ l : List FileStats,
    (insertFileDesc f l).Perm (f :: l)
  | [] => List.Perm.refl [f]
  | g :: gs => by
    rw [insertFileDesc]
    by_cases h : f.total_lines < g.total_lines
    · simp only [h, if_pos]
      exact ((perm_insertFileDesc f gs).cons g).trans (List.Perm.swap f g gs)
    · simp only [h, if_neg]
      exact List.Perm.refl _

theorem perm_pySortDesc : ∀ l : List FileStats, (pySortDesc l).Perm l
  | [] => List.Perm.nil
  | f :: fs => by
    rw [pySortDesc]
    exact (perm_insertFileDesc f (pySortDesc fs)).trans ((perm_pySortDesc fs).cons f)

theorem mem_insertFileDesc (f x : FileStats) (l : List FileStats) :
    x ∈ insertFileDesc f l ↔ x = f ∨ x ∈ l := by
  rw [(perm_insertFileDesc f l).mem_iff, List.mem_cons]

theorem sorted_insertFileDesc (f : FileStats) :
    ∀ l : List FileStats, l.Pairwise (fun a b => b.total_lines ≤ a.total_lines) →
      (insertFileDesc f l).Pairwise (fun a b => b.total_lines ≤ a.total_lines)
  | [], _ => List.pairwise_singleton _ f
  | g :: gs, h => by
    rw [insertFileDesc]
    rcases List.pairwise_cons.mp h with ⟨hg, hgs⟩
    by_cases hlt : f.total_lines < g.total_lines
    · simp only [hlt, if_pos]
      refine List.pairwise_cons.mpr ⟨?_, sorted_insertFileDesc f gs hgs⟩
      intro x hx
      rcases (mem_insertFileDesc f x gs).mp hx with rfl | hxg
      · exact le_of_lt hlt
      · exact hg x hxg
    · simp only [hlt, if_neg]
      refine List.pairwise_cons.mpr ⟨?_, h⟩
      intro x hx
      rcases List.mem_cons.mp hx with rfl | hxg
      · exact le_of_not_lt hlt
      · exact le_trans (hg x hxg) (le_of_not_lt hlt)

theorem sorted_pySortDesc : ∀ l : List FileStats,
    (pySortDesc l).Pairwise (fun a b => b.total_lines ≤ a.total_lines)
  | [] => List.Pairwise.nil
  | f :: fs => sorted_insertFileDesc f (pySortDesc fs) (sorted_pySortDesc fs)

theorem filter_insertFileDesc_ne (f : FileStats) (k : Int) (hne : ¬ f.total_lines = k) :
    ∀ l : List FileStats,
      (insertFileDesc f l).filter (fun g => g.total_lines == k)
        = l.filter (fun g => g.total_lines == k)
  | [] => by simp [insertFileDesc, hne]
  | g :: gs => by
    rw [insertFileDesc]
    by_cases hlt : f.total_lines < g.total_lines
    · simp only [hlt, if_pos, List.filter_cons]
      rw [filter_insertFileDesc_ne f k hne gs]
    · simp only [hlt, if_neg]
      simp [List.filter_cons, hne]

theorem filter_insertFileDesc_eq (f : FileStats) (k : Int) (heq : f.total_lines = k) :
    ∀ l : List FileStats, l.Pairwise (fun a b => b.total_lines ≤ a.total_lines) →
      (insertFileDesc f l).filter (fun g => g.total_lines == k)
        = f :: l.filter (fun g => g.total_lines == k)
  | [], _ => by simp [insertFileDesc, heq]
  | g :: gs, h => by
    rcases List.pairwise_cons.mp h with ⟨hg, hgs⟩
    rw [insertFileDesc]
    by_cases hlt : f.total_lines < g.total_lines
    · have hgk : ¬ g.total_lines = k := by omega
      simp only [hlt, if_pos, List.filter_cons]
      rw [filter_insertFileDesc_eq f k heq gs hgs]
      simp [hgk]
    · simp only [hlt, if_neg]
      simp [List.filter_cons, heq]

theorem filter_pySortDesc (k : Int) : ∀ l : List FileStats,
    (pySortDesc l).filter (fun g => g.total_lines == k)
      = l.filter (fun g => g.total_lines == k)
  | [] => rfl
  | f :: fs => by
    rw [pySortDesc, List.filter_cons]
    by_cases hk : f.total_lines = k
    · rw [filter_insertFileDesc_eq f k hk (pySortDesc fs) (sorted_pySortDesc fs),
        filter_pySortDesc k fs]
      simp [hk]
    · rw [filter_insertFileDesc_ne f k hk (pySortDesc fs), filter_pySortDesc k fs]
      simp [hk]

mutual

theorem allNodes_sort_rel : ∀ d : DirectoryStats,
    List.Forall₂ (fun a b => a.path = b.path ∧ a.files = pySortDesc b.files
        ∧ a.subdirectories = sortSubdirs b.subdirectories)
      (allNodes d.sort_files_by_size) (allNodes d)
  | .mk p fs subs => by
    rw [DirectoryStats.sort_files_by_size, allNodes, allNodes]
    exact List.Forall₂.cons ⟨rfl, rfl, rfl⟩ (allNodesList_sort_rel subs)

theorem allNodesList_sort_rel : ∀ ds : List DirectoryStats,
    List.Forall₂ (fun a b => a.path = b.path ∧ a.files = pySortDesc b.files
        ∧ a.subdirectories = sortSubdirs b.subdirectories)
      (allNodesList (sortSubdirs ds)) (allNodesList ds)
  | [] => by
    rw [sortSubdirs, allNodesList]
    exact List.Forall₂.nil
  | d :: ds => by
    rw [sortSubdirs, allNodesList, allNodesList]
    exact List.rel_append (allNodes_sort_rel d) (allNodesList_sort_rel ds)

end

/-- C7: after `DirectoryStats.sort_files_by_size`, every node of the
tree has its direct files list replaced by the stable descending sort
`pySortDesc` of the previous list (first conjunct, node by node), and
that sort is non-increasing by `total_lines`, a permutation of its
input (nothing added or removed), and stable — for every key the
sublist of files with that `total_lines` is unchanged. -/
theorem spec_c7_sort_files_by_size :
    (∀ d : DirectoryStats,
      List.Forall₂ (fun a b => a.files = pySortDesc b.files)
        (allNodes d.sort_files_by_size) (allNodes d))
    ∧ (∀ l : List FileStats,
      (pySortDesc l).Pairwise (fun a b => b.total_lines ≤ a.total_lines))
    ∧ (∀ l : List FileStats, (pySortDesc l).Perm l)
    ∧ (∀ (l : List FileStats) (k : Int),
      (pySortDesc l).filter (fun f => f.total_lines == k)
        = l.filter (fun f => f.total_lines == k)) :=
  ⟨fun d => List.Forall₂.imp (fun _ _ h => h.2.1) (allNodes_sort_rel d),
    sorted_pySortDesc, perm_pySortDesc, fun l k => filter_pySortDesc k l⟩

theorem mem_allNodesList : ∀ (ds : List DirectoryStats) (n : DirectoryStats),
    n ∈ allNodesList ds ↔ ∃ d ∈ ds, n ∈ allNodes d
  | [], n => by simp [allNodesList]
  | d :: ds, n => by
    rw [allNodesList]
    simp [List.mem_append, mem_allNodesList ds n]

theorem rel_mem_left {α β : Type} {R : α → β → Prop} {l₁ : List α} {l₂ : List β}
    (h : List.Forall₂ R l₁ l₂) : ∀ x ∈ l₁, ∃ y ∈ l₂, R x y := by
  induction h with
  | nil =>
    intro x hx
    simp at hx
  | cons hr hrest ih =>
    intro x hx
    rcases List.mem_cons.mp hx with rfl | hx
    · exact ⟨_, List.mem_cons_self _ _, hr⟩
    · rcases ih x hx with ⟨y, hy, hxy⟩
      exact ⟨y, List.mem_cons_of_mem _ hy, hxy⟩

theorem pruned_mk (p : String) (fs : List FileStats) (subs : List DirectoryStats)
    (h : ∀ s ∈ subs, 0 < s.total_files ∧ PrunedTree s) :
    PrunedTree (DirectoryStats.mk p fs subs) := by
  intro n hn ss hss
  rw [allNodes] at hn
  rcases List.mem_cons.mp hn with rfl | hn
  · exact (h ss hss).1
  · rcases (mem_allNodesList subs n).mp hn with ⟨t, ht, hnt⟩
    exact (h t ht).2 n hnt ss hss

mutual

theorem walkEntry_pruned (exts : Option (List String)) (ign : List String) :
    ∀ e : FSEntry, ∀ s ∈ (walkEntry exts ign e).2, 0 < s.total_files ∧ PrunedTree s
  | FSEntry.file n o => by
    intro s hs
    simp only [walkEntry] at hs
    by_cases h : shouldAnalyzeFile exts n = true
    · cases o <;> simp [h] at hs
    · simp [h] at hs
  | FSEntry.dir n den entries => by
    intro s hs
    simp only [walkEntry] at hs
    by_cases hig : shouldIgnoreDir ign n = true
    · simp [hig] at hs
    · cases den with
      | true =>
        simp [hig, DirectoryStats.total_files, totalFilesList] at hs
      | false =>
        by_cases hpos : 0 < (DirectoryStats.mk n (walkEntries exts ign entries).1
            (walkEntries exts ign entries).2).total_files
        · simp only [hig, Bool.false_eq_true, if_false, if_neg, hpos, if_pos,
            Bool.false_eq_true, List.mem_singleton] at hs
          subst hs
          refine ⟨hpos, pruned_mk _ _ _ ?_⟩
          exact fun t ht => walkEntries_pruned exts ign entries t ht
        · simp [hig, hpos] at hs

theorem walkEntries_pruned (exts : Option (List String)) (ign : List String) :
    ∀ es : List FSEntry, ∀ s ∈ (walkEntries exts ign es).2, 0 < s.total_files ∧ PrunedTree s
  | [] => by simp [walkEntries]
  | e :: es => by
    intro s hs
    simp only [walkEntries] at hs
    rcases List.mem_append.mp hs with h | h
    · exact walkEntry_pruned exts ign e s h
    · exact walkEntries_pruned exts ign es s h

end

theorem length_pySortDesc (l : List FileStats) : (pySortDesc l).length = l.length :=
  (perm_pySortDesc l).length_eq

mutual

theorem total_files_sort : ∀ d : DirectoryStats,
    d.sort_files_by_size.total_files = d.total_files
  | .mk p fs subs => by
    rw [DirectoryStats.sort_files_by_size, DirectoryStats.total_files,
      DirectoryStats.total_files, length_pySortDesc, totalFilesList_sort subs]

theorem totalFilesList_sort : ∀ ds : List DirectoryStats,
    totalFilesList (sortSubdirs ds) = totalFilesList ds
  | [] => rfl
  | d :: ds => by
    rw [sortSubdirs, totalFilesList, totalFilesList, total_files_sort d,
      totalFilesList_sort ds]

end

theorem sortSubdirs_eq_map : ∀ ds : List DirectoryStats,
    sortSubdirs ds = ds.map DirectoryStats.sort_files_by_size
  | [] => rfl
  | d :: ds => by rw [sortSubdirs, List.map_cons, sortSubdirs_eq_map ds]

theorem pruned_sort (d : DirectoryStats) (hd : PrunedTree d) :
    PrunedTree d.sort_files_by_size := by
  intro n' hn' s' hs'
  rcases rel_mem_left (allNodes_sort_rel d) n' hn' with ⟨n, hn, _, _, hsubs⟩
  rw [hsubs, sortSubdirs_eq_map] at hs'
  rcases List.mem_map.mp hs' with ⟨s, hsmem, rfl⟩
  rw [total_files_sort]
  exact hd n hn s hsmem

/-- C4: in the tree returned by `ProjectAnalyzer.analyze`, every
`DirectoryStats` node attached to some parent's `subdirectories` list
has recursive `total_files > 0`: a subdirectory with no analyzable
files anywhere beneath it is never attached. -/
theorem spec_c4_pruned_subdirectories :
    ∀ (rootExists rootIsDir : Bool) (exts : Option (List String)) (ign : List String)
      (rootName : String) (rootDenied : Bool) (rootEntries : List FSEntry)
      (d : DirectoryStats),
      ProjectAnalyzer.analyze rootExists rootIsDir exts ign rootName rootDenied rootEntries
        = Except.ok d →
      ∀ n ∈ allNodes d, ∀ s ∈ n.subdirectories, 0 < s.total_files := by
  intro rootExists rootIsDir exts ign rootName rootDenied rootEntries d hok
  cases rootExists with
  | false => simp [ProjectAnalyzer.analyze] at hok
  | true =>
    cases rootIsDir with
    | false => simp [ProjectAnalyzer.analyze] at hok
    | true =>
      have hd : d = (analyzeDirectory exts ign rootName rootDenied rootEntries).sort_files_by_size := by
        simp [ProjectAnalyzer.analyze] at hok
        exact hok.symm
      subst hd
      apply pruned_sort
      cases rootDenied with
      | true =>
        simp only [analyzeDirectory, if_pos]
        exact pruned_mk _ _ _ (by simp)
      | false =>
        simp only [analyzeDirectory, Bool.false_eq_true, if_false, if_neg]
        exact pruned_mk _ _ _ (fun t ht => walkEntries_pruned exts ign rootEntries t ht)

/-- Witness for C4: a concrete run over one analyzable file returns a
tree whose every attached subdirectory (there are none) is nonempty. -/
theorem spec_c4_pruned_subdirectories_witness :
    ProjectAnalyzer.analyze true true none [] "root" false
        [FSEntry.file "a.py" (Except.ok { path := "a.py", total_lines := 3 })]
      = Except.ok (DirectoryStats.mk "root" [{ path := "a.py", total_lines := 3 }] [])
      ∧ ∀ n ∈ allNodes (DirectoryStats.mk "root" [{ path := "a.py", total_lines := 3 }] []),
        ∀ s ∈ n.subdirectories, 0 < s.total_files :=
  ⟨rfl, spec_c4_pruned_subdirectories true true none [] "root" false
    [FSEntry.file "a.py" (Except.ok { path := "a.py", total_lines := 3 })] _ rfl⟩
